import Mathlib

/-!
# Seer: the stochastic (random walk plus noise) model and its Kalman filter

A shallow embedding of `model/stochastic.go` and of the tests in
`dist/uv/lognormal_test.go`.

* `float64` is idealised as an arbitrary field `F` with exact arithmetic (the
  theorems about order and limits take `F = ℝ`); rounding, infinities and NaN
  are outside the model.  `math.Sqrt` is a parameter of `Forecast`,
  `math.Exp` and the inverse standard normal CDF are parameters of `Quantile`.
* A Go slice is a `List`; a Go pointer that may be nil is an `Option`.
* A Go call either returns or panics: `Except Panic`.
* The packages `kalman`, `dist/mv`, `dist/uv` and the helper `DenseValues`
  belong to the repository but are not among the embedded sources; they are
  modelled from the specification and marked as such.
-/

namespace Seer

/-- Error kinds reported by the core (section 7 of the specification). -/
inductive ErrorKind where
  | InvalidParameter
  | DimensionMismatch
  | SingularInnovationCovariance
deriving DecidableEq, Repr

/-- Run-time panics of the Go program that the embedded code can raise. -/
inductive Panic where
  | makesliceLenOutOfRange
  | nilDereference
  | indexOutOfRange
  | shape
deriving DecidableEq, Repr

/-- Dereference of a Go pointer: a nil pointer panics. -/
def deref {α : Type} (p : Option α) : Except Panic α :=
  match p with
  | some a => .ok a
  | none => .error .nilDereference

/-- Pointer result of a Go call `v, _ = f(...)` whose error result is discarded:
the pointer is nil when the call failed (section 7: a failure leaves no usable
object). -/
def ptr {α : Type} (r : Except ErrorKind α) : Option α :=
  match r with
  | .ok a => some a
  | .error _ => none

/-- Go slice indexing `xs[i]`: out of range panics. -/
def index {α : Type} (xs : List α) (i : Nat) : Except Panic α :=
  match xs.get? i with
  | some a => .ok a
  | none => .error .indexOutOfRange

/-- Go slice assignment `xs[i] = a`: out of range panics. -/
def setIndex {α : Type} (xs : List α) (i : Nat) (a : α) : Except Panic (List α) :=
  if i < xs.length then .ok (xs.set i a) else .error .indexOutOfRange

/-- Size in bytes of a pointer on a 64-bit platform. -/
def ptrSize : Nat := 8

/-- Allocation limit `maxAlloc` of the Go runtime on a 64-bit platform with 48
heap address bits. -/
def maxAlloc : Nat := 2 ^ 48

/-- Go built-in `make([]*T, n)`: a slice of `n` nil pointers.  As in the
runtime function `makeslice`, the call panics (makeslice: len out of range)
when the length is negative or when the size `ptrSize * n` of the slice
exceeds `maxAlloc`, that is for `n > 2 ^ 45`.  Within that limit the
allocation succeeds: the memory of the machine is not modelled. -/
def make {α : Type} (n : Int) : Except Panic (List (Option α)) :=
  if n < 0 ∨ ptrSize * n.toNat > maxAlloc then .error .makesliceLenOutOfRange
  else .ok (List.replicate n.toNat none)

/-! ## Dense matrices (gonum `mat`, an external library) -/

namespace mat

/-- Dense matrix `mat.Dense`: dimensions and row-major values. -/
structure Dense (F : Type) where
  rows : Nat
  cols : Nat
  data : List F
deriving DecidableEq, Repr

variable {F : Type}

/-- Constructor `mat.NewDense(r, c, data)`: panics with ErrShape when the
length of `data` is not `r*c`. -/
def NewDense (r c : Nat) (data : List F) : Except Panic (Dense F) :=
  if data.length = r * c then .ok ⟨r, c, data⟩ else .error .shape

/-- Entry `m.At(i, j)`. -/
def Dense.At [Zero F] (m : Dense F) (i j : Nat) : F :=
  m.data.getD (i * m.cols + j) 0

/-- Matrix with `r` rows and `c` columns whose entry `(i, j)` is `f i j`. -/
def Dense.ofFn (r c : Nat) (f : Nat → Nat → F) : Dense F :=
  ⟨r, c, (List.range r).flatMap fun i => (List.range c).map fun j => f i j⟩

/-- Matrix product. -/
def Dense.Mul [Field F] (a b : Dense F) : Dense F :=
  Dense.ofFn a.rows b.cols fun i j =>
    ((List.range a.cols).map fun k => a.At i k * b.At k j).sum

/-- Transpose. -/
def Dense.T [Field F] (a : Dense F) : Dense F :=
  Dense.ofFn a.cols a.rows fun i j => a.At j i

/-- Entrywise sum. -/
def Dense.Add [Field F] (a b : Dense F) : Dense F :=
  Dense.ofFn a.rows a.cols fun i j => a.At i j + b.At i j

/-- Entrywise difference. -/
def Dense.Sub [Field F] (a b : Dense F) : Dense F :=
  Dense.ofFn a.rows a.cols fun i j => a.At i j - b.At i j

/-- Identity matrix of size `n`. -/
def Dense.eye [Field F] (n : Nat) : Dense F :=
  Dense.ofFn n n fun i j => if i = j then 1 else 0

/-- Inverse of a 1x1 matrix (the innovation covariance of a scalar
observation); `none` when the matrix is not 1x1 or its entry is zero. -/
def Dense.Inverse [Field F] [DecidableEq F] (m : Dense F) : Option (Dense F) :=
  if m.rows = 1 ∧ m.cols = 1 ∧ m.At 0 0 ≠ 0 then some ⟨1, 1, [(m.At 0 0)⁻¹]⟩ else none

end mat

/-! ## Kalman filter operations (package `kalman`) -/

namespace kalman

open mat

/-- Modelled from the spec: the type `kalman.State` (source not available), a
belief state with a column-vector location and a covariance matrix. -/
structure State (F : Type) where
  Loc : Dense F
  Cov : Dense F
deriving DecidableEq, Repr

/-- Modelled from the spec: the type `kalman.System` (source not available),
the linear system descriptor: transition `A`, control `B`, observation `C`,
process noise `Q`, observation noise `R`. -/
structure System (F : Type) where
  A : Dense F
  B : Dense F
  C : Dense F
  Q : Dense F
  R : Dense F
deriving DecidableEq, Repr

variable {F : Type} [Field F] [DecidableEq F]

/-- Modelled from the spec: `kalman.NewState` (source not available).
Construction validates dimensional consistency and fails with
`DimensionMismatch` otherwise (section 4.3). -/
def NewState (l c : Dense F) : Except ErrorKind (State F) :=
  if l.cols = 1 ∧ c.rows = l.rows ∧ c.cols = l.rows then .ok ⟨l, c⟩
  else .error .DimensionMismatch

/-- Modelled from the spec: `kalman.NewSystem` (source not available).
Construction validates dimensional consistency and fails with
`DimensionMismatch` otherwise (section 4.3): `A` is n x n, `B` is n x m, `C` is
k x n, `Q` is n x n, `R` is k x k. -/
def NewSystem (a b c q r : Dense F) : Except ErrorKind (System F) :=
  if a.cols = a.rows ∧ b.rows = a.rows ∧ c.cols = a.rows ∧ q.rows = a.rows ∧
      q.cols = a.rows ∧ r.rows = c.rows ∧ r.cols = c.rows then .ok ⟨a, b, c, q, r⟩
  else .error .DimensionMismatch

/-- Modelled from the spec: `kalman.Predict` (source not available), section
4.4: the a-priori belief `x1 = A x`, `P1 = A P Aᵀ + Q` (no control input). -/
def Predict (s : State F) (k : System F) : Except ErrorKind (State F) :=
  if k.A.rows = s.Loc.rows then
    NewState (k.A.Mul s.Loc) (((k.A.Mul s.Cov).Mul k.A.T).Add k.Q)
  else .error .DimensionMismatch

/-- Modelled from the spec: `kalman.Observe` (source not available), section
4.4: the predictive observation distribution `(C x, C P Cᵀ + R)`. -/
def Observe (s : State F) (k : System F) : Except ErrorKind (State F) :=
  if k.C.cols = s.Loc.rows then
    NewState (k.C.Mul s.Loc) (((k.C.Mul s.Cov).Mul k.C.T).Add k.R)
  else .error .DimensionMismatch

/-- Modelled from the spec: `kalman.Update` (source not available), section
4.4, for a scalar observed value `v`: innovation `y = v - C x1`, innovation
covariance `S = C P1 Cᵀ + R`, gain `K = P1 Cᵀ S⁻¹`, a-posteriori belief
`x2 = x1 + K y`, `P2 = (I - K C) P1`.  Fails with
`SingularInnovationCovariance` when `S` is not invertible.  Only the belief
result is modelled: the caller discards the other results. -/
def Update (s : State F) (k : System F) (v : F) : Except ErrorKind (State F) :=
  if k.C.cols = s.Loc.rows ∧ k.C.rows = 1 then
    let y := (Dense.mk 1 1 [v]).Sub (k.C.Mul s.Loc)
    let S := ((k.C.Mul s.Cov).Mul k.C.T).Add k.R
    match S.Inverse with
    | none => .error .SingularInnovationCovariance
    | some Sinv =>
      let K := (s.Cov.Mul k.C.T).Mul Sinv
      NewState (s.Loc.Add (K.Mul y)) (((Dense.eye s.Loc.rows).Sub (K.Mul k.C)).Mul s.Cov)
  else .error .DimensionMismatch

end kalman

/-! ## Distributions (packages `dist/mv` and `dist/uv`) -/

namespace mv

/-- Modelled from the spec: the type `mv.Normal` (source not available), the
multivariate normal belief: a location vector and a flat row-major
covariance. -/
structure Normal (F : Type) where
  Location : List F
  Covariance : List F
deriving DecidableEq, Repr

/-- Modelled from the spec: `mv.Normal.Dim` (source not available), the
dimension of the belief. -/
def Normal.Dim {F : Type} (n : Normal F) : Nat := n.Location.length

/-- Modelled from the spec: `mv.NewNormal` (source not available).
Construction validates dimensional consistency and fails with
`DimensionMismatch` otherwise (section 4.3). -/
def NewNormal {F : Type} (loc cov : List F) : Except ErrorKind (Normal F) :=
  if cov.length = loc.length * loc.length then .ok ⟨loc, cov⟩
  else .error .DimensionMismatch

end mv

namespace uv

/-- Modelled from the spec: the type `uv.Normal` (source not available), a
univariate normal with a location and a scale. -/
structure Normal (F : Type) where
  Location : F
  Scale : F
deriving DecidableEq, Repr

end uv

/-! ## The stochastic model (`model/stochastic.go`) -/

/-- Modelled from the spec: `DenseValues` (source not available), the values
of a dense matrix as a slice. -/
def DenseValues {F : Type} (m : mat.Dense F) : List F := m.data

/-- Stochastic is the type against which we apply stochastic model updates: it
embeds a pointer to an `mv.Normal`. -/
structure Stochastic (F : Type) where
  Normal : Option (mv.Normal F)
deriving DecidableEq, Repr

section Model

variable {F : Type} [Field F] [DecidableEq F]

/-- NewStochastic returns a stochastic with a proper state prior. -/
def NewStochastic : Stochastic F :=
  let loc : List F := [0]
  let cov : List F := [1e12]
  let n := ptr (mv.NewNormal loc cov)
  ⟨n⟩

/-- State returns the kalman filter State. -/
def Stochastic.State (s : Stochastic F) : Except Panic (Option (kalman.State F)) := do
  let n ← deref s.Normal
  let l ← mat.NewDense n.Dim 1 n.Location
  let c ← mat.NewDense n.Dim n.Dim n.Covariance
  let k := ptr (kalman.NewState l c)
  pure k

/-- System generates process and observation matrices for this linear system. -/
def Stochastic.System (_s : Stochastic F) (noise walk : F) :
    Except Panic (Option (kalman.System F)) := do
  let a ← mat.NewDense 1 1 [(1 : F)]
  let b ← mat.NewDense 1 1 [(1 : F)]
  let c ← mat.NewDense 1 1 [(1 : F)]
  let q ← mat.NewDense 1 1 [walk]
  let r ← mat.NewDense 1 1 [noise]
  let k := ptr (kalman.NewSystem a b c q r)
  pure k

/-- Update performs a filter step against the stochastic state.  The result is
the model after the call together with the returned `error` value (`none` is
the nil error). -/
def Stochastic.Update (s : Stochastic F) (noise walk val : F) :
    Except Panic (Stochastic F × Option ErrorKind) := do
  let st ← s.State
  let sy ← s.System noise walk
  let st0 ← deref st
  let sy0 ← deref sy
  let statePred := ptr (kalman.Predict st0 sy0)
  let sp ← deref statePred
  let newState := ptr (kalman.Update sp sy0 val)
  let ns ← deref newState
  let n ← deref s.Normal
  let n1 : mv.Normal F := { n with Location := DenseValues ns.Loc }
  let n2 : mv.Normal F := { n1 with Covariance := DenseValues ns.Cov }
  pure (⟨some n2⟩, none)

/-- Body of the loop `for i := 0; i < n; i++` of `Forecast`, with `k = n - i`
iterations left to run. -/
def Stochastic.forecastLoop (sqrt : F → F) (sy : Option (kalman.System F)) :
    Nat → Nat → Option (kalman.State F) → List (Option (uv.Normal F)) →
    Except Panic (List (Option (uv.Normal F)))
  | 0, _, _, f => .ok f
  | k + 1, i, st, f => do
    let st0 ← deref st
    let sy0 ← deref sy
    let st1 := ptr (kalman.Predict st0 sy0)
    let sp ← deref st1
    let ob ← deref (ptr (kalman.Observe sp sy0))
    let loc ← index (DenseValues ob.Loc) 0
    let cov ← index (DenseValues ob.Cov) 0
    let f1 ← setIndex f i (some ⟨loc, sqrt cov⟩)
    Stochastic.forecastLoop sqrt sy k (i + 1) st1 f1

/-- Forecast returns a forecasted slice of normal RVs for this stochastic
component.  The result is the model after the call together with the returned
slice of pointers. -/
def Stochastic.Forecast (sqrt : F → F) (s : Stochastic F) (noise walk : F) (n : Int) :
    Except Panic (Stochastic F × List (Option (uv.Normal F))) := do
  let f ← make n
  let st ← s.State
  let sy ← s.System noise walk
  let f1 ← Stochastic.forecastLoop sqrt sy n.toNat 0 st f
  pure (s, f1)

/-- The model holding the 1-dimensional belief with location `x` and
covariance `P`. -/
def belief (x P : F) : Stochastic F := ⟨some ⟨[x], [P]⟩⟩

/-- The 1x1 matrix with entry `a`. -/
def d1 (a : F) : mat.Dense F := ⟨1, 1, [a]⟩

/-- The 1x1 system built by `System`. -/
def sys1 (noise walk : F) : kalman.System F := ⟨d1 1, d1 1, d1 1, d1 walk, d1 noise⟩

/-- The model after a sequence of calls `Update(noise, walk, val)`, one call for
each triple `(noise, walk, val)` of the list, in order. -/
def Stochastic.Updates (s : Stochastic F) : List (F × F × F) → Except Panic (Stochastic F)
  | [] => .ok s
  | (noise, walk, val) :: rest => do
    let r ← s.Update noise walk val
    Stochastic.Updates r.1 rest

/-- Closed form of the covariance after one `Update` from the covariance `P`
(`Update_belief` proves that the code computes it). -/
def postCov (P noise walk : F) : F :=
  (1 - (P + walk) / (P + walk + noise)) * (P + walk)

/-- Closed form of the location after one `Update` from the belief `(x, P)`. -/
def postLoc (x P noise walk val : F) : F :=
  x + (P + walk) / (P + walk + noise) * (val - x)

/-- Covariance after `k` calls `Update(noise, walk, _)` from the covariance `P0`,
in closed form. -/
def covSeq (P0 noise walk : F) : Nat → F
  | 0 => P0
  | k + 1 => postCov (covSeq P0 noise walk k) noise walk

/-- Location after `k` calls `Update(noise, walk, val)` from the belief
`(x0, P0)`, in closed form. -/
def locSeq (x0 P0 noise walk val : F) : Nat → F
  | 0 => x0
  | k + 1 => postLoc (locSeq x0 P0 noise walk val k) (covSeq P0 noise walk k) noise walk val

end Model

/-! ## Univariate distributions and their tests (`dist/uv`) -/

/-- Error result of a Go call `v, err := f(...)`: nil when the call succeeded. -/
def errOf {α : Type} (r : Except ErrorKind α) : Option ErrorKind :=
  match r with
  | .ok _ => none
  | .error e => some e

namespace uv

/-- Modelled from the spec: the type `uv.LogNormal` (source not available), the
distribution whose logarithm is a Normal with this location and scale. -/
structure LogNormal (F : Type) where
  Location : F
  Scale : F
deriving DecidableEq, Repr

section Univariate

variable {F : Type} [LinearOrderedField F]

/-- Modelled from the spec: `uv.NewNormal` (source not available), section 4.1:
fails with `InvalidParameter` when `scale <= 0`. -/
def NewNormal (location scale : F) : Except ErrorKind (Normal F) :=
  if scale ≤ 0 then .error .InvalidParameter else .ok ⟨location, scale⟩

/-- Modelled from the spec: `uv.Normal.Quantile` (source not available), section
4.1: `location + scale * InverseStandardNormalCDF(p)`.  The inverse standard
normal CDF is an external primitive, a parameter here. -/
def Normal.Quantile (invCDF : F → F) (n : Normal F) (p : F) : F :=
  n.Location + n.Scale * invCDF p

/-- Modelled from the spec: `uv.NewLogNormal` (source not available), section
4.2: construction with the same validation as Normal, leaving no usable object
on failure. -/
def NewLogNormal (location scale : F) : Except ErrorKind (LogNormal F) :=
  match NewNormal location scale with
  | .ok n => .ok ⟨n.Location, n.Scale⟩
  | .error e => .error e

/-- Modelled from the spec: `uv.LogNormal.Quantile` (source not available),
section 4.2: `exp(underlyingNormal.Quantile(p))`.  `math.Exp` is a parameter. -/
def LogNormal.Quantile (exp invCDF : F → F) (ln : LogNormal F) (p : F) : F :=
  exp (Normal.Quantile invCDF ⟨ln.Location, ln.Scale⟩ p)

end Univariate

end uv

/-- Failures that the tests of `dist/uv/lognormal_test.go` report with
`t.Error` or `t.Errorf`. -/
inductive TestFailure where
  | unexpectedError
  | wrongLocation
  | wrongScale
  | expectedError
  | expectedNilDist
  | wrongMedian
deriving DecidableEq, Repr

section Tests

variable (F : Type) [LinearOrderedField F]

/-- One sub-test of `TestNewLogNormal` for the table entry `(loc, scale)`: the
failures it reports. -/
def TestNewLogNormalCase {F : Type} [LinearOrderedField F] (loc scale : F) :
    Except Panic (List TestFailure) := do
  let r := uv.NewLogNormal loc scale
  let ln := ptr r
  let err := errOf r
  let e1 := if err ≠ none then [TestFailure.unexpectedError] else []
  let l ← deref ln
  let e2 := if l.Location ≠ loc then [TestFailure.wrongLocation] else []
  let e3 := if l.Scale ≠ scale then [TestFailure.wrongScale] else []
  pure (e1 ++ e2 ++ e3)

/-- TestNewLogNormal: the table entries `(0, 1)` and `(-10, 2)`. -/
def TestNewLogNormal : Except Panic (List TestFailure) := do
  let a ← TestNewLogNormalCase (0 : F) 1
  let b ← TestNewLogNormalCase (-10 : F) 2
  pure (a ++ b)

/-- One sub-test of `TestNewLogNormalErrs` for the table entry `(loc, scale)`:
the failures it reports. -/
def TestNewLogNormalErrsCase {F : Type} [LinearOrderedField F] (loc scale : F) :
    List TestFailure :=
  let r := uv.NewLogNormal loc scale
  let ln := ptr r
  let err := errOf r
  let e1 := if err = none then [TestFailure.expectedError] else []
  let e2 := if ln ≠ none then [TestFailure.expectedNilDist] else []
  e1 ++ e2

/-- TestNewLogNormalErrs: the table entries `(10, 0)` and `(10, -2)`. -/
def TestNewLogNormalErrs : List TestFailure :=
  TestNewLogNormalErrsCase (10 : F) 0 ++ TestNewLogNormalErrsCase (10 : F) (-2)

/-- TestLogNormalQuantile: the median quantile of the standard log-normal. -/
def TestLogNormalQuantile {F : Type} [LinearOrderedField F] (exp invCDF : F → F) :
    Except Panic (List TestFailure) := do
  let loc : F := 0.0
  let scale : F := 1.0
  let r := uv.NewLogNormal loc scale
  let ln := ptr r
  let err := errOf r
  let e1 := if err ≠ none then [TestFailure.unexpectedError] else []
  let l ← deref ln
  let e2 := if |l.Quantile exp invCDF 0.5 - exp loc| > 1e-8 then [TestFailure.wrongMedian] else []
  pure (e1 ++ e2)

end Tests

/-! ## The operations on 1x1 matrices -/

theorem d1_Mul {F : Type} [Field F] (a b : F) : (d1 a).Mul (d1 b) = d1 (a * b) := by
  simp [d1, mat.Dense.Mul, mat.Dense.ofFn, mat.Dense.At, List.range_succ]

theorem d1_T {F : Type} [Field F] (a : F) : (d1 a).T = d1 a := by
  simp [d1, mat.Dense.T, mat.Dense.ofFn, mat.Dense.At, List.range_succ]

theorem d1_Add {F : Type} [Field F] (a b : F) : (d1 a).Add (d1 b) = d1 (a + b) := by
  simp [d1, mat.Dense.Add, mat.Dense.ofFn, mat.Dense.At, List.range_succ]

theorem d1_Sub {F : Type} [Field F] (a b : F) : (d1 a).Sub (d1 b) = d1 (a - b) := by
  simp [d1, mat.Dense.Sub, mat.Dense.ofFn, mat.Dense.At, List.range_succ]

theorem eye_one {F : Type} [Field F] : (mat.Dense.eye 1 : mat.Dense F) = d1 1 := by
  simp [d1, mat.Dense.eye, mat.Dense.ofFn, List.range_succ]

theorem d1_Inverse {F : Type} [Field F] [DecidableEq F] (a : F) :
    (d1 a).Inverse = if a ≠ 0 then some (d1 a⁻¹) else none := by
  simp [d1, mat.Dense.Inverse, mat.Dense.At]

theorem State_belief {F : Type} (x P : F) :
    (belief x P).State = .ok (some ⟨d1 x, d1 P⟩) := by
  rfl

theorem System_eq {F : Type} [Field F] (s : Stochastic F) (noise walk : F) :
    s.System noise walk = .ok (some (sys1 noise walk)) := by
  rfl

theorem Predict_d1 {F : Type} [Field F] (x P noise walk : F) :
    kalman.Predict ⟨d1 x, d1 P⟩ (sys1 noise walk) = .ok ⟨d1 x, d1 (P + walk)⟩ := by
  simp only [kalman.Predict, sys1, d1_Mul, d1_T, d1_Add, one_mul, mul_one]
  simp [kalman.NewState, d1]

theorem Observe_d1 {F : Type} [Field F] (x P noise walk : F) :
    kalman.Observe ⟨d1 x, d1 P⟩ (sys1 noise walk) = .ok ⟨d1 x, d1 (P + noise)⟩ := by
  simp only [kalman.Observe, sys1, d1_Mul, d1_T, d1_Add, one_mul, mul_one]
  simp [kalman.NewState, d1]

theorem Update_d1 {F : Type} [Field F] [DecidableEq F] (x P noise walk val : F) (h : P + noise ≠ 0) :
    kalman.Update ⟨d1 x, d1 P⟩ (sys1 noise walk) val =
      .ok ⟨d1 (x + P / (P + noise) * (val - x)), d1 ((1 - P / (P + noise)) * P)⟩ := by
  have hv : (mat.Dense.mk 1 1 [val] : mat.Dense F) = d1 val := rfl
  have hr : (d1 x).rows = 1 := rfl
  have hi : (d1 (P + noise)).Inverse = some (d1 (P + noise)⁻¹) := by
    rw [d1_Inverse, if_pos h]
  simp only [kalman.Update, sys1, hv, hr, eye_one, d1_Mul, d1_T, d1_Add, d1_Sub, hi,
    one_mul, mul_one]
  simp [kalman.NewState, d1, div_eq_mul_inv]

theorem Update_d1_singular {F : Type} [Field F] [DecidableEq F] (x P noise walk val : F) (h : P + noise = 0) :
    kalman.Update ⟨d1 x, d1 P⟩ (sys1 noise walk) val =
      .error .SingularInnovationCovariance := by
  have hv : (mat.Dense.mk 1 1 [val] : mat.Dense F) = d1 val := rfl
  simp only [kalman.Update, sys1, hv, d1_Mul, d1_T, d1_Add, d1_Sub, d1_Inverse,
    one_mul, mul_one, h]
  simp [d1]


theorem Update_belief {F : Type} [Field F] [DecidableEq F] (x P noise walk val : F) (h : P + walk + noise ≠ 0) :
    (belief x P).Update noise walk val =
      .ok (belief (x + (P + walk) / (P + walk + noise) * (val - x))
        ((1 - (P + walk) / (P + walk + noise)) * (P + walk)), none) := by
  simp only [Stochastic.Update, State_belief, System_eq, bind, Except.bind, deref, ptr,
    Predict_d1, Update_d1 x (P + walk) noise walk val h]
  rfl

theorem forecastLoop_d1 {F : Type} [Field F] (sqrt : F → F) (x noise walk : F) (k : Nat) :
    ∀ (P : F) (pre : List (Option (uv.Normal F))),
      Stochastic.forecastLoop sqrt (some (sys1 noise walk)) k pre.length (some ⟨d1 x, d1 P⟩)
          (pre ++ List.replicate k none) =
        .ok (pre ++ (List.range k).map fun (j : Nat) =>
          some ⟨x, sqrt (P + ((j : F) + 1) * walk + noise)⟩) := by
  induction k with
  | zero => intro P pre; simp [Stochastic.forecastLoop]
  | succ k ih =>
    intro P pre
    have hset : setIndex (pre ++ List.replicate (k + 1) none) pre.length
          (some (⟨x, sqrt (P + walk + noise)⟩ : uv.Normal F)) =
        .ok ((pre ++ [some ⟨x, sqrt (P + walk + noise)⟩]) ++ List.replicate k none) := by
      simp [setIndex, List.replicate_succ]
    have hlen : pre.length + 1 = (pre ++ [some (⟨x, sqrt (P + walk + noise)⟩ : uv.Normal F)]).length := by
      simp
    have hv : ∀ a : F, DenseValues (d1 a) = [a] := fun _ => rfl
    simp only [Stochastic.forecastLoop, bind, Except.bind, deref, ptr, Predict_d1, Observe_d1,
      hv, index, List.get?, hset]
    rw [hlen]
    have := ih (P + walk) (pre ++ [some ⟨x, sqrt (P + walk + noise)⟩])
    rw [this, List.range_succ_eq_map, List.map_cons, List.map_map]
    simp only [List.append_assoc, List.singleton_append, Nat.cast_zero, zero_add, one_mul]
    congr 3
    apply List.map_congr_left
    intro j _
    simp only [Function.comp, Nat.cast_succ]
    congr 3
    ring

theorem make_ok {α : Type} (n : Int) (hn : 0 ≤ n) (hmax : n ≤ 2 ^ 45) :
    (make n : Except Panic (List (Option α))) = .ok (List.replicate n.toNat none) := by
  have h : ¬ (n < 0 ∨ ptrSize * n.toNat > maxAlloc) := by
    simp only [ptrSize, maxAlloc]
    norm_num at hmax ⊢
    omega
  simp only [make, if_neg h]

theorem make_neg {α : Type} (n : Int) (hn : n < 0) :
    (make n : Except Panic (List (Option α))) = .error .makesliceLenOutOfRange := by
  simp [make, hn]

theorem make_large {α : Type} (n : Int) (hn : 2 ^ 45 < n) :
    (make n : Except Panic (List (Option α))) = .error .makesliceLenOutOfRange := by
  have h : n < 0 ∨ ptrSize * n.toNat > maxAlloc := by
    simp only [ptrSize, maxAlloc]
    norm_num at hn ⊢
    omega
  simp only [make, if_pos h]

theorem Forecast_belief {F : Type} [Field F] (sqrt : F → F) (x P noise walk : F) (n : Int)
    (hn : 0 ≤ n) (hmax : n ≤ 2 ^ 45) :
    (belief x P).Forecast sqrt noise walk n =
      .ok (belief x P, (List.range n.toNat).map fun (j : Nat) =>
          some ⟨x, sqrt (P + ((j : F) + 1) * walk + noise)⟩) := by
  have h := forecastLoop_d1 sqrt x noise walk n.toNat P []
  simp only [List.length_nil, List.nil_append] at h
  simp only [Stochastic.Forecast, make_ok n hn hmax, State_belief, System_eq, bind,
    Except.bind, h]
  rfl

/-- Beyond the allocation limit `Forecast` panics in its first statement. -/
theorem Forecast_large {F : Type} [Field F] [DecidableEq F] (sqrt : F → F)
    (s : Stochastic F) (noise walk : F) (n : Int) (hn : 2 ^ 45 < n) :
    s.Forecast sqrt noise walk n = .error Panic.makesliceLenOutOfRange := by
  simp only [Stochastic.Forecast, make_large n hn, bind, Except.bind]

/-- Every run of `Forecast` that returns hands back the model it was called on. -/
theorem Forecast_ok_fst {F : Type} [Field F] [DecidableEq F] (sqrt : F → F)
    (s : Stochastic F) (noise walk : F) (n : Int)
    (r : Stochastic F × List (Option (uv.Normal F)))
    (h : s.Forecast sqrt noise walk n = .ok r) : r.1 = s := by
  simp only [Stochastic.Forecast, bind, Except.bind, pure, Except.pure] at h
  repeat' split at h
  all_goals first | (cases h; rfl) | cases h

/-! ## Update: one filter step -/

/-- The prior built by `NewStochastic` is the 1-dimensional belief `(0, 1e12)`. -/
theorem NewStochastic_eq {F : Type} [Field F] :
    (NewStochastic : Stochastic F) = belief 0 1e12 := rfl

/-- The error value returned by `Update` is always nil. -/
theorem Update_error_nil {F : Type} [Field F] [DecidableEq F] (s s1 : Stochastic F)
    (noise walk val : F) (e : Option ErrorKind)
    (h : s.Update noise walk val = .ok (s1, e)) : e = none := by
  simp only [Stochastic.Update, bind, Except.bind, pure, Except.pure] at h
  repeat' split at h
  all_goals first | (cases h; rfl) | cases h

/-- C1: for every 1-dimensional belief `(x, P)` and every `noise`, `walk`, `val` with
`P + walk + noise ≠ 0`, `Update(noise, walk, val)` returns the nil error and replaces the
belief by the result of Predict followed by the Kalman Update: with `P1 = P + walk` and
`K = P1 / (P1 + noise)` the new location is `x + K * (val - x)` and the new covariance is
`(1 - K) * P1`. -/
theorem Stochastic_Update_predict_then_update {F : Type} [Field F] [DecidableEq F]
    (x P noise walk val : F) (h : P + walk + noise ≠ 0) :
    (∃ sp ns, kalman.Predict ⟨d1 x, d1 P⟩ (sys1 noise walk) = .ok sp ∧
      kalman.Update sp (sys1 noise walk) val = .ok ns ∧
      (belief x P).Update noise walk val =
        .ok (⟨some ⟨DenseValues ns.Loc, DenseValues ns.Cov⟩⟩, none)) ∧
    (belief x P).Update noise walk val =
      .ok (belief (x + (P + walk) / (P + walk + noise) * (val - x))
        ((1 - (P + walk) / (P + walk + noise)) * (P + walk)), none) :=
  ⟨⟨_, _, Predict_d1 x P noise walk, Update_d1 x (P + walk) noise walk val h,
    Update_belief x P noise walk val h⟩, Update_belief x P noise walk val h⟩

/-- Witness of C1 at the belief `(1, 2)` with noise 3, walk 4 and observed value 5: the
gain is `6 / 9`, the new belief is `(11 / 3, 2)`. -/
theorem Stochastic_Update_predict_then_update_witness :
    ((2 : ℚ) + 4 + 3 ≠ 0) ∧
    (belief (1 : ℚ) 2).Update 3 4 5 =
      .ok (belief (1 + (2 + 4) / (2 + 4 + 3) * (5 - 1)) ((1 - (2 + 4) / (2 + 4 + 3)) * (2 + 4)),
        none) :=
  ⟨by norm_num, (Stochastic_Update_predict_then_update (1 : ℚ) 2 3 4 5 (by norm_num)).2⟩

/-- C6, as stated, fails.  From the prior of `NewStochastic`, `Update(0, 0, 5)` returns the
belief `(5, 0)`; in a second `Update(0, 0, 5)` the innovation covariance is `0 + 0 + 0`, the
Kalman update fails with `SingularInnovationCovariance`, and the call surfaces no
`SingularInnovationCovariance` to its caller. -/
theorem Stochastic_Update_singular_counterexample :
    (NewStochastic : Stochastic ℚ).Update 0 0 5 = .ok (belief 5 0, none) ∧
    kalman.Predict ⟨d1 5, d1 0⟩ (sys1 (0 : ℚ) 0) = .ok ⟨d1 5, d1 0⟩ ∧
    kalman.Update ⟨d1 (5 : ℚ), d1 0⟩ (sys1 0 0) 5 = .error .SingularInnovationCovariance ∧
    ∀ s1, (belief (5 : ℚ) 0).Update 0 0 5 ≠ .ok (s1, some .SingularInnovationCovariance) := by
  refine ⟨?_, ?_, ?_, ?_⟩
  · rw [NewStochastic_eq, Update_belief (0 : ℚ) 1e12 0 0 5 (by norm_num)]
    norm_num
  · have := Predict_d1 (5 : ℚ) 0 0 0
    simpa using this
  · exact Update_d1_singular (5 : ℚ) 0 0 0 5 (by norm_num)
  · intro s1 h
    have := Update_error_nil _ _ _ _ _ _ h
    cases this

/-- C6, amended: for every 1-dimensional belief `(x, P)` and every `noise`, `walk`, `val`
whose innovation covariance `P + walk + noise` is `0`, the Kalman update of the predicted
belief fails with `SingularInnovationCovariance`, and `Update(noise, walk, val)` does not
surface it: the error results of the filter operations are discarded and the call returns
no error value other than nil. -/
theorem Stochastic_Update_singular_discarded {F : Type} [Field F] [DecidableEq F]
    (x P noise walk val : F) (h : P + walk + noise = 0) :
    kalman.Predict ⟨d1 x, d1 P⟩ (sys1 noise walk) = .ok ⟨d1 x, d1 (P + walk)⟩ ∧
    kalman.Update ⟨d1 x, d1 (P + walk)⟩ (sys1 noise walk) val =
      .error .SingularInnovationCovariance ∧
    ∀ s1 e, (belief x P).Update noise walk val ≠ .ok (s1, some e) := by
  refine ⟨Predict_d1 x P noise walk, Update_d1_singular x (P + walk) noise walk val h, ?_⟩
  intro s1 e he
  have := Update_error_nil _ _ _ _ _ _ he
  cases this

/-- Witness of the amended C6 at the belief `(3, 2)` with noise 1, walk -3 and observed
value 4. -/
theorem Stochastic_Update_singular_discarded_witness :
    ((2 : ℚ) + -3 + 1 = 0) ∧
    kalman.Predict ⟨d1 3, d1 2⟩ (sys1 (1 : ℚ) (-3)) = .ok ⟨d1 3, d1 (2 + -3)⟩ ∧
    kalman.Update ⟨d1 (3 : ℚ), d1 (2 + -3)⟩ (sys1 1 (-3)) 4 =
      .error .SingularInnovationCovariance ∧
    ∀ s1 e, (belief (3 : ℚ) 2).Update 1 (-3) 4 ≠ .ok (s1, some e) :=
  ⟨by norm_num, Stochastic_Update_singular_discarded (3 : ℚ) 2 1 (-3) 4 (by norm_num)⟩

/-! ## Forecast -/

/-- C2, as stated, fails: for `n = 2 ^ 45 + 1` and the index `i = 0 < n` the call
`Forecast(1, 1, n)` has no element 0.  It returns no sequence: the allocation
`make([]*uv.Normal, n)` of more than `maxAlloc` bytes panics. -/
theorem Stochastic_Forecast_element_counterexample :
    (((0 : Nat) : Int) < 2 ^ 45 + 1) ∧
    (belief (0 : ℚ) 1).Forecast id 1 1 (2 ^ 45 + 1) = .error Panic.makesliceLenOutOfRange ∧
    ¬ ∃ f, (belief (0 : ℚ) 1).Forecast id 1 1 (2 ^ 45 + 1) = .ok (belief 0 1, f) ∧
      f[0]? = some (some ⟨0, id (1 + (((0 : Nat) : ℚ) + 1) * 1 + 1)⟩) := by
  have h := Forecast_large id (belief (0 : ℚ) 1) 1 1 (2 ^ 45 + 1) (by norm_num)
  refine ⟨by norm_num, h, ?_⟩
  rintro ⟨f, hf, _⟩
  rw [h] at hf
  cases hf

/-- C2, amended: for every 1-dimensional belief `(x, P)`, every `noise`, `walk`, every `n`
up to the allocation limit, `n ≤ 2 ^ 45`, and every index `i` with `0 ≤ i < n`, element
`i` of `Forecast(noise, walk, n)` is the Normal with location `x` and scale
`sqrt (P + (i + 1) * walk + noise)`. -/
theorem Stochastic_Forecast_element {F : Type} [Field F] [DecidableEq F] (sqrt : F → F)
    (x P noise walk : F) (n : Int) (i : Nat) (hi : (i : Int) < n) (hmax : n ≤ 2 ^ 45) :
    ∃ f, (belief x P).Forecast sqrt noise walk n = .ok (belief x P, f) ∧
      f[i]? = some (some ⟨x, sqrt (P + ((i : F) + 1) * walk + noise)⟩) := by
  have hn : 0 ≤ n := le_trans (Int.ofNat_nonneg i) (le_of_lt hi)
  refine ⟨_, Forecast_belief sqrt x P noise walk n hn hmax, ?_⟩
  have hlt : i < n.toNat := by omega
  simp [List.getElem?_map, List.getElem?_range hlt]

/-- Witness of the amended C2: element 2 of a forecast of 4 steps from the belief `(7, 1)`
with noise 10 and walk 100 (the square root is replaced by the identity, so the scale
shown is the variance `1 + 3 * 100 + 10`). -/
theorem Stochastic_Forecast_element_witness :
    ((2 : Nat) : Int) < 4 ∧ (4 : Int) ≤ 2 ^ 45 ∧
    ∃ f, (belief (7 : ℚ) 1).Forecast id 10 100 4 = .ok (belief 7 1, f) ∧
      f[2]? = some (some ⟨7, id (1 + (((2 : Nat) : ℚ) + 1) * 100 + 10)⟩) :=
  ⟨by decide, by norm_num,
    Stochastic_Forecast_element id (7 : ℚ) 1 10 100 4 2 (by decide) (by norm_num)⟩

/-- C3, as stated, fails: for `n = 2 ^ 62 ≥ 0` the call `Forecast(1, 2, n)` returns no
sequence of `n` distributions: the allocation `make([]*uv.Normal, n)` of more than
`maxAlloc` bytes panics. -/
theorem Stochastic_Forecast_length_counterexample :
    ((0 : Int) ≤ 2 ^ 62) ∧
    (belief (0 : ℚ) 0).Forecast id 1 2 (2 ^ 62) = .error Panic.makesliceLenOutOfRange ∧
    ¬ ∃ s f, (belief (0 : ℚ) 0).Forecast id 1 2 (2 ^ 62) = .ok (s, f) ∧
      (f.length : Int) = 2 ^ 62 ∧ (∀ p ∈ f, p ≠ none) ∧ ((2 ^ 62 : Int) = 0 → f = []) := by
  have h := Forecast_large id (belief (0 : ℚ) 0) 1 2 (2 ^ 62) (by norm_num)
  refine ⟨by norm_num, h, ?_⟩
  rintro ⟨s, f, hf, _⟩
  rw [h] at hf
  cases hf

/-- C3, amended: for every 1-dimensional belief, every `noise` and `walk` and every `n`
with `0 ≤ n ≤ 2 ^ 45`, the allocation limit, `Forecast(noise, walk, n)` returns a sequence
of exactly `n` distributions, none of them nil; for `n = 0` it is the empty sequence. -/
theorem Stochastic_Forecast_length {F : Type} [Field F] [DecidableEq F] (sqrt : F → F)
    (x P noise walk : F) (n : Int) (hn : 0 ≤ n) (hmax : n ≤ 2 ^ 45) :
    ∃ s f, (belief x P).Forecast sqrt noise walk n = .ok (s, f) ∧
      (f.length : Int) = n ∧ (∀ p ∈ f, p ≠ none) ∧ (n = 0 → f = []) := by
  refine ⟨_, _, Forecast_belief sqrt x P noise walk n hn hmax, ?_, ?_, ?_⟩
  · simp [Int.toNat_of_nonneg hn]
  · intro p hp
    simp only [List.mem_map] at hp
    obtain ⟨j, _, rfl⟩ := hp
    simp
  · intro h0
    simp [h0]

/-- Witness of the amended C3 at `n = 3`. -/
theorem Stochastic_Forecast_length_witness :
    (0 : Int) ≤ 3 ∧ (3 : Int) ≤ 2 ^ 45 ∧
    ∃ s f, (belief (0 : ℚ) 0).Forecast id 1 2 3 = .ok (s, f) ∧
      (f.length : Int) = 3 ∧ (∀ p ∈ f, p ≠ none) ∧ ((3 : Int) = 0 → f = []) :=
  ⟨by decide, by norm_num,
    Stochastic_Forecast_length id (0 : ℚ) 0 1 2 3 (by decide) (by norm_num)⟩

/-- C4: for every 1-dimensional belief, every `noise` and `walk` and every `n ≥ 0`,
`Forecast(noise, walk, n)` does not mutate the stored belief of the model.  Every run that
returns, from any model, hands back the model it was called on; up to the allocation
limit, `n ≤ 2 ^ 45`, the call returns and the location and the covariance after the call
are those before the call; beyond the limit the call panics in its first statement, the
allocation of the result, before the model is read. -/
theorem Stochastic_Forecast_frame {F : Type} [Field F] [DecidableEq F] (sqrt : F → F)
    (x P noise walk : F) (n : Int) (hn : 0 ≤ n) :
    (∀ (s : Stochastic F) (r : Stochastic F × List (Option (uv.Normal F))),
      s.Forecast sqrt noise walk n = .ok r → r.1 = s) ∧
    (n ≤ 2 ^ 45 →
      Prod.fst <$> (belief x P).Forecast sqrt noise walk n = .ok (belief x P)) ∧
    (2 ^ 45 < n →
      (belief x P).Forecast sqrt noise walk n = .error Panic.makesliceLenOutOfRange) := by
  refine ⟨fun s r h => Forecast_ok_fst sqrt s noise walk n r h, fun hmax => ?_,
    fun hlarge => Forecast_large sqrt (belief x P) noise walk n hlarge⟩
  rw [Forecast_belief sqrt x P noise walk n hn hmax]
  rfl

/-- Witness of C4 at `n = 5` from the belief `(3, 4)`: the call returns and the model after
it is the belief `(3, 4)`. -/
theorem Stochastic_Forecast_frame_witness :
    (0 : Int) ≤ 5 ∧ (5 : Int) ≤ 2 ^ 45 ∧
    Prod.fst <$> (belief (3 : ℚ) 4).Forecast id 1 2 5 = .ok (belief 3 4) :=
  ⟨by decide, by norm_num,
    (Stochastic_Forecast_frame id (3 : ℚ) 4 1 2 5 (by decide)).2.1 (by norm_num)⟩

/-- C5, as stated, fails: `Forecast(1, 1, -1)` reports no `InvalidParameter` error.  The
call does not return at all: the allocation `make([]*uv.Normal, -1)` panics. -/
theorem Stochastic_Forecast_negative_counterexample :
    (belief (0 : ℚ) 1).Forecast id 1 1 (-1) = .error Panic.makesliceLenOutOfRange ∧
    ∀ r, (belief (0 : ℚ) 1).Forecast id 1 1 (-1) ≠ .ok r := by
  have h : (belief (0 : ℚ) 1).Forecast id 1 1 (-1) = .error Panic.makesliceLenOutOfRange := rfl
  refine ⟨h, ?_⟩
  intro r hr
  rw [h] at hr
  cases hr

/-- C5, amended: for every model, every `noise` and `walk` and every `n < 0`,
`Forecast(noise, walk, n)` returns nothing to its caller, neither a sequence nor an error
value: its first statement, the allocation of the result, panics with a length out of
range. -/
theorem Stochastic_Forecast_negative {F : Type} [Field F] [DecidableEq F] (sqrt : F → F)
    (s : Stochastic F) (noise walk : F) (n : Int) (hn : n < 0) :
    s.Forecast sqrt noise walk n = .error Panic.makesliceLenOutOfRange := by
  simp only [Stochastic.Forecast, make_neg n hn, bind, Except.bind]

/-- Witness of the amended C5 at `n = -3`. -/
theorem Stochastic_Forecast_negative_witness :
    (-3 : Int) < 0 ∧
    (NewStochastic : Stochastic ℚ).Forecast id 1 2 (-3) = .error Panic.makesliceLenOutOfRange :=
  ⟨by decide, Stochastic_Forecast_negative id NewStochastic 1 2 (-3) (by decide)⟩


/-! ## Sequences of updates -/

theorem Updates_append {F : Type} [Field F] [DecidableEq F] (l1 l2 : List (F × F × F)) :
    ∀ s : Stochastic F, s.Updates (l1 ++ l2) = (s.Updates l1 >>= fun s1 => s1.Updates l2) := by
  induction l1 with
  | nil => intro s; rfl
  | cons c l1 ih =>
    intro s
    obtain ⟨noise, walk, val⟩ := c
    simp only [List.cons_append, Stochastic.Updates, bind, Except.bind]
    cases s.Update noise walk val with
    | error e => rfl
    | ok r => exact ih r.1

theorem postCov_eq (P noise walk : ℝ) (h : P + walk + noise ≠ 0) :
    postCov P noise walk = (P + walk) * noise / (P + walk + noise) := by
  unfold postCov
  field_simp
  ring

theorem postCov_nonneg (P noise walk : ℝ) (hP : 0 ≤ P) (hw : 0 ≤ walk) (hn : 0 < noise) :
    0 ≤ postCov P noise walk := by
  have hpos : 0 < P + walk + noise := by linarith
  rw [postCov_eq P noise walk hpos.ne.symm]
  exact div_nonneg (mul_nonneg (by linarith) hn.le) hpos.le

theorem postCov_pos (P noise walk : ℝ) (hP : 0 < P) (hw : 0 ≤ walk) (hn : 0 < noise) :
    0 < postCov P noise walk := by
  have hpos : 0 < P + walk + noise := by linarith
  rw [postCov_eq P noise walk hpos.ne.symm]
  exact div_pos (mul_pos (by linarith) hn) hpos

theorem postCov_lt_noise (P noise walk : ℝ) (hP : 0 ≤ P) (hw : 0 ≤ walk) (hn : 0 < noise) :
    postCov P noise walk < noise := by
  have hpos : 0 < P + walk + noise := by linarith
  rw [postCov_eq P noise walk hpos.ne.symm, div_lt_iff₀ hpos]
  nlinarith

theorem postCov_mono (a b noise walk : ℝ) (ha : 0 ≤ a) (hab : a ≤ b) (hw : 0 ≤ walk)
    (hn : 0 < noise) : postCov a noise walk ≤ postCov b noise walk := by
  have hpa : 0 < a + walk + noise := by linarith
  have hpb : 0 < b + walk + noise := by linarith
  rw [postCov_eq a noise walk hpa.ne.symm, postCov_eq b noise walk hpb.ne.symm,
    div_le_div_iff₀ hpa hpb]
  nlinarith [mul_nonneg (mul_nonneg hn.le hn.le) (sub_nonneg.mpr hab)]

theorem covSeq_nonneg (P0 noise walk : ℝ) (hP : 0 ≤ P0) (hw : 0 ≤ walk) (hn : 0 < noise) :
    ∀ k, 0 ≤ covSeq P0 noise walk k
  | 0 => hP
  | k + 1 => postCov_nonneg _ noise walk (covSeq_nonneg P0 noise walk hP hw hn k) hw hn

theorem Updates_replicate (x0 P0 noise walk val : ℝ) (hP : 0 ≤ P0) (hw : 0 ≤ walk)
    (hn : 0 < noise) (k : Nat) :
    (belief x0 P0).Updates (List.replicate k (noise, walk, val)) =
      .ok (belief (locSeq x0 P0 noise walk val k) (covSeq P0 noise walk k)) := by
  induction k with
  | zero => rfl
  | succ k ih =>
    have hne : covSeq P0 noise walk k + walk + noise ≠ 0 := by
      have := covSeq_nonneg P0 noise walk hP hw hn k
      exact (by linarith : (0 : ℝ) < covSeq P0 noise walk k + walk + noise).ne.symm
    rw [List.replicate_succ', Updates_append, ih]
    simp only [bind, Except.bind, Stochastic.Updates, Update_belief _ _ noise walk val hne]
    rfl

theorem covSeq_antitone_or_monotone (P0 noise walk : ℝ) (hP : 0 ≤ P0) (hw : 0 ≤ walk)
    (hn : 0 < noise) : Antitone (covSeq P0 noise walk) ∨ Monotone (covSeq P0 noise walk) := by
  have h0 := covSeq_nonneg P0 noise walk hP hw hn
  rcases le_total (covSeq P0 noise walk 1) (covSeq P0 noise walk 0) with h | h
  · left
    apply antitone_nat_of_succ_le
    intro k
    induction k with
    | zero => exact h
    | succ k ih => exact postCov_mono _ _ noise walk (h0 (k + 1)) ih hw hn
  · right
    apply monotone_nat_of_le_succ
    intro k
    induction k with
    | zero => exact h
    | succ k ih => exact postCov_mono _ _ noise walk (h0 k) ih hw hn

open Filter Topology in
theorem covSeq_limit_eq (P0 noise walk L : ℝ) (hP : 0 ≤ P0) (hw : 0 ≤ walk) (hn : 0 < noise)
    (hlim : Tendsto (covSeq P0 noise walk) atTop (𝓝 L)) :
    L = (-walk + Real.sqrt (walk ^ 2 + 4 * walk * noise)) / 2 := by
  have hL : 0 ≤ L := ge_of_tendsto' hlim (covSeq_nonneg P0 noise walk hP hw hn)
  have hpos : 0 < L + walk + noise := by linarith
  have h1 : ContinuousAt (fun P : ℝ => P + walk) L := continuousAt_id.add continuousAt_const
  have h2 : ContinuousAt (fun P : ℝ => P + walk + noise) L := h1.add continuousAt_const
  have hc : ContinuousAt (fun P : ℝ => postCov P noise walk) L :=
    (continuousAt_const.sub (h1.div h2 hpos.ne.symm)).mul h1
  have hg : Tendsto (fun k => postCov (covSeq P0 noise walk k) noise walk) atTop
      (𝓝 (postCov L noise walk)) := hc.tendsto.comp hlim
  have hshift : Tendsto (fun k => covSeq P0 noise walk (k + 1)) atTop (𝓝 L) :=
    (tendsto_add_atTop_iff_nat 1).mpr hlim
  have hfix : L = postCov L noise walk := tendsto_nhds_unique hshift hg
  rw [postCov_eq L noise walk hpos.ne.symm, eq_div_iff hpos.ne.symm] at hfix
  have hsq : walk ^ 2 + 4 * walk * noise = (2 * L + walk) ^ 2 := by nlinarith
  rw [hsq, Real.sqrt_sq (by linarith)]
  ring

open Filter Topology in
theorem covSeq_tendsto (P0 noise walk : ℝ) (hP : 0 ≤ P0) (hw : 0 ≤ walk) (hn : 0 < noise) :
    Tendsto (covSeq P0 noise walk) atTop
      (𝓝 ((-walk + Real.sqrt (walk ^ 2 + 4 * walk * noise)) / 2)) := by
  have h0 := covSeq_nonneg P0 noise walk hP hw hn
  rcases covSeq_antitone_or_monotone P0 noise walk hP hw hn with h | h
  · have hlim := tendsto_atTop_ciInf h ⟨0, Set.forall_mem_range.mpr h0⟩
    rwa [covSeq_limit_eq P0 noise walk _ hP hw hn hlim] at hlim
  · have hb : BddAbove (Set.range (covSeq P0 noise walk)) := by
      refine ⟨max P0 noise, Set.forall_mem_range.mpr ?_⟩
      intro k
      cases k with
      | zero => exact le_max_left _ _
      | succ k => exact le_trans (postCov_lt_noise _ noise walk (h0 k) hw hn).le (le_max_right _ _)
    have hlim := tendsto_atTop_ciSup h hb
    rwa [covSeq_limit_eq P0 noise walk _ hP hw hn hlim] at hlim


/-! ## Claims about order and limits (exact real arithmetic) -/

/-- C7, as stated, fails: for `n = 2 ^ 63 - 1`, the largest `int`, and `i = 0`, so that
`i + 1 < n`, the call `Forecast(1, 1, n)` from the belief `(0, 1)` has no steps 0 and 1 to
compare.  It returns no sequence: the allocation `make([]*uv.Normal, n)` of more than
`maxAlloc` bytes panics. -/
theorem Stochastic_Forecast_scale_monotone_counterexample :
    ((0 : ℝ) ≤ 1) ∧ (((0 : Nat) : Int) + 1 < 2 ^ 63 - 1) ∧
    (belief (0 : ℝ) 1).Forecast Real.sqrt 1 1 (2 ^ 63 - 1) =
      .error Panic.makesliceLenOutOfRange ∧
    ¬ ∃ s f a b, (belief (0 : ℝ) 1).Forecast Real.sqrt 1 1 (2 ^ 63 - 1) = .ok (s, f) ∧
      f[0]? = some (some a) ∧ f[0 + 1]? = some (some b) ∧ a.Scale ≤ b.Scale := by
  have h := Forecast_large Real.sqrt (belief (0 : ℝ) 1) 1 1 (2 ^ 63 - 1) (by norm_num)
  refine ⟨by norm_num, by norm_num, h, ?_⟩
  rintro ⟨s, f, a, b, hf, _⟩
  rw [h] at hf
  cases hf

/-- C7, amended: for every 1-dimensional belief with covariance `P ≥ 0`, every `noise ≥ 0`,
every `walk ≥ 0`, every `n` up to the allocation limit, `n ≤ 2 ^ 45`, and every `i` with
`i + 1 < n`, in `Forecast(noise, walk, n)` the scale of step `i + 1` is at least the scale
of step `i`. -/
theorem Stochastic_Forecast_scale_monotone (x P noise walk : ℝ) (n : Int) (i : Nat)
    (_hP : 0 ≤ P) (_hnoise : 0 ≤ noise) (hwalk : 0 ≤ walk) (hi : (i : Int) + 1 < n)
    (hmax : n ≤ 2 ^ 45) :
    ∃ s f a b, (belief x P).Forecast Real.sqrt noise walk n = .ok (s, f) ∧
      f[i]? = some (some a) ∧ f[i + 1]? = some (some b) ∧ a.Scale ≤ b.Scale := by
  have hn : 0 ≤ n := by omega
  have h0 : i < n.toNat := by omega
  have h1 : i + 1 < n.toNat := by omega
  refine ⟨_, _, ⟨x, Real.sqrt (P + ((i : ℝ) + 1) * walk + noise)⟩,
    ⟨x, Real.sqrt (P + (((i + 1 : Nat) : ℝ) + 1) * walk + noise)⟩,
    Forecast_belief Real.sqrt x P noise walk n hn hmax, ?_, ?_, ?_⟩
  · simp only [List.getElem?_map, List.getElem?_range h0, Option.map_some']
  · simp only [List.getElem?_map, List.getElem?_range h1, Option.map_some']
  · apply Real.sqrt_le_sqrt
    push_cast
    nlinarith

/-- Witness of the amended C7: steps 1 and 2 of a forecast of 3 steps from the belief
`(5, 1)` with noise 1 and walk 1 / 10. -/
theorem Stochastic_Forecast_scale_monotone_witness :
    (0 : ℝ) ≤ 1 ∧ (0 : ℝ) ≤ 1 ∧ (0 : ℝ) ≤ 1 / 10 ∧ ((1 : Nat) : Int) + 1 < 3 ∧
    (3 : Int) ≤ 2 ^ 45 ∧
    ∃ s f a b, (belief (5 : ℝ) 1).Forecast Real.sqrt 1 (1 / 10) 3 = .ok (s, f) ∧
      f[1]? = some (some a) ∧ f[1 + 1]? = some (some b) ∧ a.Scale ≤ b.Scale :=
  ⟨by norm_num, by norm_num, by norm_num, by decide, by norm_num,
    Stochastic_Forecast_scale_monotone 5 1 1 (1 / 10) 3 1 (by norm_num) (by norm_num)
      (by norm_num) (by decide) (by norm_num)⟩

/-- C8, as stated, fails: from the covariance `P = 0` with `walk = 0` and `noise = 1` the
a-priori covariance is `0 + 0` and the covariance after `Update(1, 0, 5)` is `0`, which is
not strictly less. -/
theorem Stochastic_Update_covariance_decrease_counterexample :
    ∃ x1 P1, (belief (0 : ℝ) 0).Update 1 0 5 = .ok (belief x1 P1, none) ∧
      ¬ (P1 < 0 + 0) := by
  refine ⟨_, _, Update_belief (0 : ℝ) 0 1 0 5 (by norm_num), ?_⟩
  norm_num

/-- C8, amended: for every 1-dimensional belief with covariance `P ≥ 0`, every `walk ≥ 0`,
every `noise > 0` and every `val`, `Update(noise, walk, val)` returns a belief whose
covariance is at most the a-priori covariance `P + walk`, and strictly less than it when
`P + walk > 0`. -/
theorem Stochastic_Update_covariance_decrease (x P noise walk val : ℝ) (hP : 0 ≤ P)
    (hw : 0 ≤ walk) (hn : 0 < noise) :
    ∃ x1 P1, (belief x P).Update noise walk val = .ok (belief x1 P1, none) ∧
      P1 ≤ P + walk ∧ (0 < P + walk → P1 < P + walk) := by
  have hpos : 0 < P + walk + noise := by linarith
  refine ⟨_, _, Update_belief x P noise walk val hpos.ne.symm, ?_, ?_⟩
  · have h := postCov_eq P noise walk hpos.ne.symm
    unfold postCov at h
    rw [h, div_le_iff₀ hpos]
    nlinarith [mul_nonneg (add_nonneg hP hw) (add_nonneg hP hw)]
  · intro hp
    have h := postCov_eq P noise walk hpos.ne.symm
    unfold postCov at h
    rw [h, div_lt_iff₀ hpos]
    nlinarith [mul_pos hp hp]

/-- Witness of the amended C8 at the prior `(0, 1e12)` with noise 1 and walk 1 / 10. -/
theorem Stochastic_Update_covariance_decrease_witness :
    (0 : ℝ) ≤ 1e12 ∧ (0 : ℝ) ≤ 1 / 10 ∧ (0 : ℝ) < 1 ∧
    ∃ x1 P1, (belief (0 : ℝ) 1e12).Update 1 (1 / 10) 5 = .ok (belief x1 P1, none) ∧
      P1 ≤ 1e12 + 1 / 10 ∧ (0 < (1e12 : ℝ) + 1 / 10 → P1 < 1e12 + 1 / 10) :=
  ⟨by norm_num, by norm_num, by norm_num,
    Stochastic_Update_covariance_decrease 0 1e12 1 (1 / 10) 5 (by norm_num) (by norm_num)
      (by norm_num)⟩

open Filter Topology in
/-- C9: for every `noise > 0`, `walk ≥ 0`, constant observed value `v` and initial
1-dimensional belief with covariance `P0 ≥ 0`, every finite run of repeated
`Update(noise, walk, v)` returns, and the sequence of belief covariances `P 0 = P0`, `P 1`,
`P 2`, ... is monotone (non-increasing throughout or non-decreasing throughout) and
converges to `(-walk + sqrt (walk ^ 2 + 4 * walk * noise)) / 2`, which is non-negative
and a fixed point of `P ↦ (P + walk) * noise / (P + walk + noise)`. -/
theorem Stochastic_Update_covariance_converges (noise walk v x0 P0 : ℝ) (hn : 0 < noise)
    (hw : 0 ≤ walk) (hP : 0 ≤ P0) :
    ∃ x P : Nat → ℝ, x 0 = x0 ∧ P 0 = P0 ∧
      (∀ k, (belief x0 P0).Updates (List.replicate k (noise, walk, v)) =
        .ok (belief (x k) (P k))) ∧
      (Antitone P ∨ Monotone P) ∧
      Tendsto P atTop (𝓝 ((-walk + Real.sqrt (walk ^ 2 + 4 * walk * noise)) / 2)) ∧
      0 ≤ (-walk + Real.sqrt (walk ^ 2 + 4 * walk * noise)) / 2 ∧
      ((-walk + Real.sqrt (walk ^ 2 + 4 * walk * noise)) / 2 + walk) * noise /
          ((-walk + Real.sqrt (walk ^ 2 + 4 * walk * noise)) / 2 + walk + noise) =
        (-walk + Real.sqrt (walk ^ 2 + 4 * walk * noise)) / 2 := by
  have hD : walk ≤ Real.sqrt (walk ^ 2 + 4 * walk * noise) :=
    Real.le_sqrt_of_sq_le (by nlinarith [mul_nonneg hw hn.le])
  have hD2 : Real.sqrt (walk ^ 2 + 4 * walk * noise) ^ 2 = walk ^ 2 + 4 * walk * noise :=
    Real.sq_sqrt (by nlinarith [mul_nonneg hw hn.le, sq_nonneg walk])
  refine ⟨locSeq x0 P0 noise walk v, covSeq P0 noise walk, rfl, rfl,
    Updates_replicate x0 P0 noise walk v hP hw hn,
    covSeq_antitone_or_monotone P0 noise walk hP hw hn,
    covSeq_tendsto P0 noise walk hP hw hn, by linarith, ?_⟩
  have hpos : 0 < (-walk + Real.sqrt (walk ^ 2 + 4 * walk * noise)) / 2 + walk + noise := by
    linarith
  rw [div_eq_iff hpos.ne.symm]
  nlinarith

/-- Witness of C9 at the prior of `NewStochastic` with noise 1, walk 1 / 10 and the constant
observed value 5. -/
theorem Stochastic_Update_covariance_converges_witness :
    (0 : ℝ) < 1 ∧ (0 : ℝ) ≤ 1 / 10 ∧ (0 : ℝ) ≤ 1e12 ∧
    ∃ x P : Nat → ℝ, x 0 = 0 ∧ P 0 = 1e12 ∧
      (∀ k, (NewStochastic : Stochastic ℝ).Updates (List.replicate k (1, 1 / 10, 5)) =
        .ok (belief (x k) (P k))) ∧
      (Antitone P ∨ Monotone P) ∧
      Filter.Tendsto P Filter.atTop
        (nhds ((-(1 / 10) + Real.sqrt ((1 / 10) ^ 2 + 4 * (1 / 10) * 1)) / 2)) ∧
      0 ≤ (-(1 / 10) + Real.sqrt ((1 / 10) ^ 2 + 4 * (1 / 10) * 1)) / 2 ∧
      ((-(1 / 10) + Real.sqrt ((1 / 10) ^ 2 + 4 * (1 / 10) * 1)) / 2 + 1 / 10) * 1 /
          ((-(1 / 10) + Real.sqrt ((1 / 10) ^ 2 + 4 * (1 / 10) * 1)) / 2 + 1 / 10 + 1) =
        (-(1 / 10) + Real.sqrt ((1 / 10) ^ 2 + 4 * (1 / 10) * 1)) / 2 :=
  ⟨by norm_num, by norm_num, by norm_num,
    Stochastic_Update_covariance_converges 1 (1 / 10) 5 0 1e12 (by norm_num) (by norm_num)
      (by norm_num)⟩

theorem Updates_positive (calls : List (ℝ × ℝ × ℝ)) (h : ∀ c ∈ calls, 0 < c.1 ∧ 0 ≤ c.2.1) :
    ∀ x P : ℝ, 0 < P → ∃ x1 P1, 0 < P1 ∧ (belief x P).Updates calls = .ok (belief x1 P1) := by
  induction calls with
  | nil => intro x P hP; exact ⟨x, P, hP, rfl⟩
  | cons c rest ih =>
    intro x P hP
    obtain ⟨noise, walk, val⟩ := c
    obtain ⟨hn, hw⟩ : 0 < noise ∧ 0 ≤ walk := h (noise, walk, val) (List.mem_cons_self _ _)
    have hne : P + walk + noise ≠ 0 := (by linarith : (0 : ℝ) < P + walk + noise).ne.symm
    obtain ⟨x1, P1, hP1, hrun⟩ := ih (fun c hc => h c (List.mem_cons_of_mem _ hc))
      (postLoc x P noise walk val) (postCov P noise walk) (postCov_pos P noise walk hP hw hn)
    refine ⟨x1, P1, hP1, ?_⟩
    simp only [Stochastic.Updates, bind, Except.bind, Update_belief x P noise walk val hne]
    exact hrun

/-- C10: in every state reachable from `NewStochastic()` by a finite sequence of calls
`Update(noise, walk, val)` with `noise > 0` and `walk ≥ 0`, all of which return, the
location has length 1, the covariance is a single entry, and that entry is positive. -/
theorem Stochastic_reachable_invariant (calls : List (ℝ × ℝ × ℝ))
    (h : ∀ c ∈ calls, 0 < c.1 ∧ 0 ≤ c.2.1) :
    ∃ n : mv.Normal ℝ, (NewStochastic : Stochastic ℝ).Updates calls = .ok ⟨some n⟩ ∧
      n.Location.length = 1 ∧ n.Dim = 1 ∧ n.Covariance.length = 1 ∧
      ∀ P ∈ n.Covariance, 0 < P := by
  obtain ⟨x1, P1, hP1, hrun⟩ := Updates_positive calls h 0 1e12 (by norm_num)
  refine ⟨⟨[x1], [P1]⟩, hrun, rfl, rfl, rfl, ?_⟩
  intro P hmem
  rw [List.mem_singleton] at hmem
  rw [hmem]
  exact hP1

/-- Witness of C10 for the two calls `Update(1, 1 / 10, 5)` and `Update(2, 0, 7)`. -/
theorem Stochastic_reachable_invariant_witness :
    (∀ c ∈ [((1 : ℝ), (1 / 10 : ℝ), (5 : ℝ)), (2, 0, 7)], 0 < c.1 ∧ 0 ≤ c.2.1) ∧
    ∃ n : mv.Normal ℝ,
      (NewStochastic : Stochastic ℝ).Updates [(1, 1 / 10, 5), (2, 0, 7)] = .ok ⟨some n⟩ ∧
      n.Location.length = 1 ∧ n.Dim = 1 ∧ n.Covariance.length = 1 ∧
      ∀ P ∈ n.Covariance, 0 < P :=
  ⟨by simp, Stochastic_reachable_invariant [(1, 1 / 10, 5), (2, 0, 7)] (by simp)⟩



/-! ## Univariate distributions -/

theorem NewLogNormal_ok {F : Type} [LinearOrderedField F] (location scale : F)
    (h : 0 < scale) : uv.NewLogNormal location scale = .ok ⟨location, scale⟩ := by
  simp [uv.NewLogNormal, uv.NewNormal, not_le.mpr h]

theorem NewLogNormal_error {F : Type} [LinearOrderedField F] (location scale : F)
    (h : scale ≤ 0) : uv.NewLogNormal location scale = .error .InvalidParameter := by
  simp [uv.NewLogNormal, uv.NewNormal, h]

theorem TestNewLogNormalErrs_passes : TestNewLogNormalErrs ℚ = [] := by
  simp [TestNewLogNormalErrs, TestNewLogNormalErrsCase,
    NewLogNormal_error (10 : ℚ) 0 (le_refl 0),
    NewLogNormal_error (10 : ℚ) (-2) (by norm_num), ptr, errOf]

theorem TestNewLogNormal_passes : TestNewLogNormal ℚ = .ok [] := by
  simp [TestNewLogNormal, TestNewLogNormalCase,
    NewLogNormal_ok (0 : ℚ) 1 (by norm_num),
    NewLogNormal_ok (-10 : ℚ) 2 (by norm_num), ptr, errOf, deref, bind, Except.bind, pure,
    Except.pure]

theorem TestLogNormalQuantile_passes {F : Type} [LinearOrderedField F] (exp invCDF : F → F)
    (h : invCDF 0.5 = 0) : TestLogNormalQuantile exp invCDF = .ok [] := by
  have hr : uv.NewLogNormal (0.0 : F) 1.0 = .ok ⟨0.0, 1.0⟩ :=
    NewLogNormal_ok 0.0 1.0 (by norm_num)
  have hq : (⟨0.0, 1.0⟩ : uv.LogNormal F).Quantile exp invCDF 0.5 = exp 0.0 := by
    simp [uv.LogNormal.Quantile, uv.Normal.Quantile, h]
  have hle : ¬ ((0 : F) > 1e-8) := by norm_num
  simp only [TestLogNormalQuantile, hr, ptr, errOf, deref, bind, Except.bind, pure,
    Except.pure, hq, sub_self, abs_zero, hle, if_false, ne_eq, not_true_eq_false,
    List.append_nil]

/-- C11: for every location and every `scale ≤ 0`, `NewLogNormal(location, scale)` fails
with the non-nil error `InvalidParameter` and returns a nil distribution. -/
theorem uv_NewLogNormal_invalid {F : Type} [LinearOrderedField F] (location scale : F)
    (h : scale ≤ 0) :
    uv.NewLogNormal location scale = .error .InvalidParameter ∧
    errOf (uv.NewLogNormal location scale) = some .InvalidParameter ∧
    ptr (uv.NewLogNormal location scale) = none := by
  rw [NewLogNormal_error location scale h]
  exact ⟨rfl, rfl, rfl⟩

/-- Witness of C11 at the entries `(10, 0)` and `(10, -2)` of `TestNewLogNormalErrs`,
which reports no failure. -/
theorem uv_NewLogNormal_invalid_witness :
    ((-2 : ℚ) ≤ 0) ∧
    (uv.NewLogNormal (10 : ℚ) (-2) = .error .InvalidParameter ∧
      errOf (uv.NewLogNormal (10 : ℚ) (-2)) = some .InvalidParameter ∧
      ptr (uv.NewLogNormal (10 : ℚ) (-2)) = none) ∧
    ptr (uv.NewLogNormal (10 : ℚ) 0) = none ∧
    TestNewLogNormalErrs ℚ = [] :=
  ⟨by norm_num, uv_NewLogNormal_invalid (10 : ℚ) (-2) (by norm_num),
    (uv_NewLogNormal_invalid (10 : ℚ) 0 (le_refl 0)).2.2, TestNewLogNormalErrs_passes⟩

/-- C12: for every location and every `scale > 0`, `NewLogNormal(location, scale)` succeeds
with a nil error and returns a distribution whose `Location` is the given location and
whose `Scale` is the given scale. -/
theorem uv_NewLogNormal_valid {F : Type} [LinearOrderedField F] (location scale : F)
    (h : 0 < scale) :
    errOf (uv.NewLogNormal location scale) = none ∧
    ∃ ln, ptr (uv.NewLogNormal location scale) = some ln ∧
      ln.Location = location ∧ ln.Scale = scale := by
  rw [NewLogNormal_ok location scale h]
  exact ⟨rfl, _, rfl, rfl, rfl⟩

/-- Witness of C12 at the entries `(0, 1)` and `(-10, 2)` of `TestNewLogNormal`, which
reports no failure. -/
theorem uv_NewLogNormal_valid_witness :
    ((0 : ℚ) < 2) ∧
    (errOf (uv.NewLogNormal (-10 : ℚ) 2) = none ∧
      ∃ ln, ptr (uv.NewLogNormal (-10 : ℚ) 2) = some ln ∧
        ln.Location = -10 ∧ ln.Scale = 2) ∧
    errOf (uv.NewLogNormal (0 : ℚ) 1) = none ∧
    TestNewLogNormal ℚ = .ok [] :=
  ⟨by norm_num, uv_NewLogNormal_valid (-10 : ℚ) 2 (by norm_num),
    (uv_NewLogNormal_valid (0 : ℚ) 1 (by norm_num)).1, TestNewLogNormal_passes⟩

/-- C13: for every `(location, scale)` with `scale > 0` and every inverse standard normal
CDF with value `0` at `0.5`, the LogNormal built by `NewLogNormal` has the median quantile
`Quantile(0.5) = exp(location)` over exact reals, hence within `1e-8` of it. -/
theorem uv_LogNormal_Quantile_median (location scale : ℝ) (invCDF : ℝ → ℝ) (hs : 0 < scale)
    (h0 : invCDF 0.5 = 0) :
    ∃ ln, uv.NewLogNormal location scale = .ok ln ∧
      ln.Quantile Real.exp invCDF 0.5 =
        Real.exp (location + scale * invCDF 0.5) ∧
      ln.Quantile Real.exp invCDF 0.5 = Real.exp location ∧
      |ln.Quantile Real.exp invCDF 0.5 - Real.exp location| ≤ 1e-8 := by
  have hr := NewLogNormal_ok location scale hs
  have hq : (⟨location, scale⟩ : uv.LogNormal ℝ).Quantile Real.exp invCDF 0.5 =
      Real.exp location := by
    simp [uv.LogNormal.Quantile, uv.Normal.Quantile, h0]
  refine ⟨_, hr, rfl, hq, ?_⟩
  rw [hq, sub_self, abs_zero]
  norm_num

/-- Witness of C13 at the standard log-normal of `TestLogNormalQuantile`, with the inverse
CDF replaced by `p ↦ p - 0.5`; the test reports no failure. -/
theorem uv_LogNormal_Quantile_median_witness :
    ((0 : ℝ) < 1) ∧ ((fun p : ℝ => p - 0.5) 0.5 = 0) ∧
    (∃ ln, uv.NewLogNormal (0 : ℝ) 1 = .ok ln ∧
      ln.Quantile Real.exp (fun p : ℝ => p - 0.5) 0.5 =
        Real.exp (0 + 1 * (fun p : ℝ => p - 0.5) 0.5) ∧
      ln.Quantile Real.exp (fun p : ℝ => p - 0.5) 0.5 = Real.exp 0 ∧
      |ln.Quantile Real.exp (fun p : ℝ => p - 0.5) 0.5 - Real.exp 0| ≤ 1e-8) ∧
    TestLogNormalQuantile Real.exp (fun p : ℝ => p - 0.5) = .ok [] :=
  ⟨by norm_num, by norm_num,
    uv_LogNormal_Quantile_median 0 1 (fun p : ℝ => p - 0.5) (by norm_num) (by norm_num),
    TestLogNormalQuantile_passes Real.exp (fun p : ℝ => p - 0.5) (by norm_num)⟩

/-! ## Construction and the system descriptor -/

/-- C14: `NewStochastic()` returns a model whose belief is 1-dimensional, with location
exactly `[0]` and covariance exactly `[1e12]`. -/
theorem Stochastic_NewStochastic_prior {F : Type} [Field F] :
    ∃ n : mv.Normal F, (NewStochastic : Stochastic F).Normal = some n ∧
      n.Dim = 1 ∧ n.Location = [0] ∧ n.Covariance = [1e12] :=
  ⟨⟨[0], [1e12]⟩, rfl, rfl, rfl, rfl⟩

/-- C15: for every `noise` and `walk` and every model state, `System(noise, walk)` returns
a 1x1 linear system descriptor with transition `[1]`, control `[1]`, observation `[1]`,
process noise `[walk]` and observation noise `[noise]`; the result is the same for every
model. -/
theorem Stochastic_System_descriptor {F : Type} [Field F] (s s1 : Stochastic F)
    (noise walk : F) :
    (∃ k : kalman.System F, s.System noise walk = .ok (some k) ∧
      k.A = ⟨1, 1, [1]⟩ ∧ k.B = ⟨1, 1, [1]⟩ ∧ k.C = ⟨1, 1, [1]⟩ ∧
      k.Q = ⟨1, 1, [walk]⟩ ∧ k.R = ⟨1, 1, [noise]⟩) ∧
    s.System noise walk = s1.System noise walk :=
  ⟨⟨sys1 noise walk, System_eq s noise walk, rfl, rfl, rfl, rfl, rfl⟩, rfl⟩

/-! ## Further properties of one update -/

theorem Update_belief_singular {F : Type} [Field F] [DecidableEq F] (x P noise walk val : F)
    (h : P + walk + noise = 0) :
    (belief x P).Update noise walk val = .error .nilDereference := by
  simp only [Stochastic.Update, State_belief, System_eq, bind, Except.bind, deref, ptr,
    Predict_d1, Update_d1_singular x (P + walk) noise walk val h]

/-- C17: the covariance of the belief after `Update(noise, walk, val)` does not depend on
the observed value or on the prior location: for every covariance `P`, `noise`, `walk`
and any two runs with prior locations `x1`, `x2` and observed values `v1`, `v2`, the
outcomes have the same covariance; when `P + walk + noise ≠ 0` both runs return and that
covariance is `(1 - K) * (P + walk)` with `K = (P + walk) / (P + walk + noise)`. -/
theorem Stochastic_Update_covariance_independent {F : Type} [Field F] [DecidableEq F]
    (P noise walk x1 x2 v1 v2 : F) :
    (fun r : Stochastic F × Option ErrorKind => r.1.Normal.map fun n => n.Covariance) <$>
        (belief x1 P).Update noise walk v1 =
      (fun r : Stochastic F × Option ErrorKind => r.1.Normal.map fun n => n.Covariance) <$>
        (belief x2 P).Update noise walk v2 ∧
    (P + walk + noise ≠ 0 →
      (fun r : Stochastic F × Option ErrorKind => r.1.Normal.map fun n => n.Covariance) <$>
          (belief x1 P).Update noise walk v1 =
        .ok (some [(1 - (P + walk) / (P + walk + noise)) * (P + walk)])) := by
  by_cases h : P + walk + noise = 0
  · refine ⟨?_, fun hne => absurd h hne⟩
    rw [Update_belief_singular x1 P noise walk v1 h, Update_belief_singular x2 P noise walk v2 h]
  · refine ⟨?_, fun _ => ?_⟩
    · rw [Update_belief x1 P noise walk v1 h, Update_belief x2 P noise walk v2 h]
      rfl
    · rw [Update_belief x1 P noise walk v1 h]
      rfl

/-- Witness of C17: the two runs from the beliefs `(1, 2)` and `(-7, 2)` with noise 3, walk 4
and the observed values 5 and 100 both end with the covariance `[2]`. -/
theorem Stochastic_Update_covariance_independent_witness :
    ((2 : ℚ) + 4 + 3 ≠ 0) ∧
    (fun r : Stochastic ℚ × Option ErrorKind => r.1.Normal.map fun n => n.Covariance) <$>
        (belief (1 : ℚ) 2).Update 3 4 5 =
      (fun r : Stochastic ℚ × Option ErrorKind => r.1.Normal.map fun n => n.Covariance) <$>
        (belief (-7 : ℚ) 2).Update 3 4 100 ∧
    (fun r : Stochastic ℚ × Option ErrorKind => r.1.Normal.map fun n => n.Covariance) <$>
        (belief (1 : ℚ) 2).Update 3 4 5 =
      .ok (some [(1 - (2 + 4) / (2 + 4 + 3)) * (2 + 4)]) :=
  ⟨by norm_num, (Stochastic_Update_covariance_independent (2 : ℚ) 3 4 1 (-7) 5 100).1,
    (Stochastic_Update_covariance_independent (2 : ℚ) 3 4 1 (-7) 5 100).2 (by norm_num)⟩

/-- C18: for every 1-dimensional belief `(x, P)` with `P ≥ 0`, every `walk ≥ 0`, every
`noise > 0` and every `val`, the location after `Update(noise, walk, val)` is the convex
combination `(1 - K) * x + K * val` with the gain `K = (P + walk) / (P + walk + noise)`,
`0 ≤ K < 1`, and so lies in the closed interval between `x` and `val`. -/
theorem Stochastic_Update_location_between (x P noise walk val : ℝ) (hP : 0 ≤ P)
    (hw : 0 ≤ walk) (hn : 0 < noise) :
    ∃ x1 P1, (belief x P).Update noise walk val = .ok (belief x1 P1, none) ∧
      0 ≤ (P + walk) / (P + walk + noise) ∧ (P + walk) / (P + walk + noise) < 1 ∧
      x1 = (1 - (P + walk) / (P + walk + noise)) * x + (P + walk) / (P + walk + noise) * val ∧
      min x val ≤ x1 ∧ x1 ≤ max x val := by
  have hpos : 0 < P + walk + noise := by linarith
  have hK0 : 0 ≤ (P + walk) / (P + walk + noise) := div_nonneg (by linarith) hpos.le
  have hK1 : (P + walk) / (P + walk + noise) < 1 := by
    rw [div_lt_one hpos]
    linarith
  refine ⟨_, _, Update_belief x P noise walk val hpos.ne.symm, hK0, hK1, by ring, ?_, ?_⟩
  · rcases le_total x val with h | h
    · rw [min_eq_left h]
      nlinarith [mul_nonneg hK0 (sub_nonneg.mpr h)]
    · rw [min_eq_right h]
      nlinarith [mul_nonneg (sub_nonneg.mpr hK1.le) (sub_nonneg.mpr h)]
  · rcases le_total x val with h | h
    · rw [max_eq_right h]
      nlinarith [mul_nonneg (sub_nonneg.mpr hK1.le) (sub_nonneg.mpr h)]
    · rw [max_eq_left h]
      nlinarith [mul_nonneg hK0 (sub_nonneg.mpr h)]

/-- Witness of C18 at the prior `(0, 1e12)` with noise 1, walk 0.1 and observed value 5. -/
theorem Stochastic_Update_location_between_witness :
    (0 : ℝ) ≤ 1e12 ∧ (0 : ℝ) ≤ 0.1 ∧ (0 : ℝ) < 1 ∧
    ∃ x1 P1, (belief (0 : ℝ) 1e12).Update 1 0.1 5 = .ok (belief x1 P1, none) ∧
      0 ≤ ((1e12 : ℝ) + 0.1) / (1e12 + 0.1 + 1) ∧ ((1e12 : ℝ) + 0.1) / (1e12 + 0.1 + 1) < 1 ∧
      x1 = (1 - (1e12 + 0.1) / (1e12 + 0.1 + 1)) * 0 + (1e12 + 0.1) / (1e12 + 0.1 + 1) * 5 ∧
      min 0 5 ≤ x1 ∧ x1 ≤ max 0 5 :=
  ⟨by norm_num, by norm_num, by norm_num,
    Stochastic_Update_location_between 0 1e12 1 0.1 5 (by norm_num) (by norm_num)
      (by norm_num)⟩

/-- C19: for every 1-dimensional belief with covariance `P ≥ 0`, every `walk ≥ 0`, every
`noise > 0` and every `val`, the covariance after `Update(noise, walk, val)` is strictly
less than the observation noise, however large `P` is. -/
theorem Stochastic_Update_covariance_lt_noise (x P noise walk val : ℝ) (hP : 0 ≤ P)
    (hw : 0 ≤ walk) (hn : 0 < noise) :
    ∃ x1 P1, (belief x P).Update noise walk val = .ok (belief x1 P1, none) ∧ P1 < noise :=
  ⟨_, _, Update_belief x P noise walk val (by linarith : (0 : ℝ) < P + walk + noise).ne.symm,
    postCov_lt_noise P noise walk hP hw hn⟩

/-- Witness of C19 at the diffuse prior of `NewStochastic`, covariance `1e12`, with noise 1
and walk 0.1. -/
theorem Stochastic_Update_covariance_lt_noise_witness :
    (0 : ℝ) ≤ 1e12 ∧ (0 : ℝ) ≤ 0.1 ∧ (0 : ℝ) < 1 ∧
    ∃ x1 P1, (NewStochastic : Stochastic ℝ).Update 1 0.1 5 = .ok (belief x1 P1, none) ∧
      P1 < 1 :=
  ⟨by norm_num, by norm_num, by norm_num,
    Stochastic_Update_covariance_lt_noise 0 1e12 1 0.1 5 (by norm_num) (by norm_num)
      (by norm_num)⟩

/-! ## End to end -/

/-- C16: for the model obtained from `NewStochastic()` by one `Update(1.0, 0.1, 5.0)`,
`Forecast(1.0, 0.1, 3)` returns exactly 3 Normals whose scales are strictly increasing and
whose locations all differ from `5.0` by less than the post-update scale, the square root
of the post-update covariance. -/
theorem Stochastic_end_to_end :
    ∃ (x1 P1 : ℝ) (n0 n1 n2 : uv.Normal ℝ),
      (NewStochastic : Stochastic ℝ).Update 1.0 0.1 5.0 = .ok (belief x1 P1, none) ∧
      (belief x1 P1).Forecast Real.sqrt 1.0 0.1 3 =
        .ok (belief x1 P1, [some n0, some n1, some n2]) ∧
      n0.Scale < n1.Scale ∧ n1.Scale < n2.Scale ∧
      |n0.Location - 5.0| < Real.sqrt P1 ∧ |n1.Location - 5.0| < Real.sqrt P1 ∧
      |n2.Location - 5.0| < Real.sqrt P1 := by
  have hloc : |(0 + ((1e12 : ℝ) + 0.1) / (1e12 + 0.1 + 1.0) * (5.0 - 0)) - 5.0| <
      Real.sqrt ((1 - ((1e12 : ℝ) + 0.1) / (1e12 + 0.1 + 1.0)) * (1e12 + 0.1)) := by
    rw [Real.lt_sqrt (abs_nonneg _), sq_abs]
    norm_num
  refine ⟨0 + ((1e12 : ℝ) + 0.1) / (1e12 + 0.1 + 1.0) * (5.0 - 0),
    (1 - ((1e12 : ℝ) + 0.1) / (1e12 + 0.1 + 1.0)) * (1e12 + 0.1),
    ⟨_, Real.sqrt (_ + (((0 : Nat) : ℝ) + 1) * 0.1 + 1.0)⟩,
    ⟨_, Real.sqrt (_ + (((1 : Nat) : ℝ) + 1) * 0.1 + 1.0)⟩,
    ⟨_, Real.sqrt (_ + (((2 : Nat) : ℝ) + 1) * 0.1 + 1.0)⟩,
    Update_belief (0 : ℝ) 1e12 1.0 0.1 5.0 (by norm_num),
    Forecast_belief Real.sqrt _ _ 1.0 0.1 3 (by decide) (by norm_num), ?_, ?_, hloc, hloc,
    hloc⟩
  · exact Real.sqrt_lt_sqrt (by norm_num) (by norm_num)
  · exact Real.sqrt_lt_sqrt (by norm_num) (by norm_num)

end Seer
